import Mathlib

/-!
Shallow embedding of the Solana transaction-construction helpers of
`src/evm_loader/solana_utils.py` (class `NeonEvmClient`, class `EthereumTransaction`,
the instruction builders and the `CREATE_ACCOUNT_LAYOUT` codec), together with
theorems settling the specification claims about them.

External collaborators (the sha256 digest, the spl associated-token-address
derivation, base58 decoding, the chain balance query, and the helpers imported
from `eth_tx_utils`) are injected as parameters of an `Env` / `TxEnv` record:
the embedded functions use them exactly where the Python code calls them.
-/

namespace NeonEvm

/-- A Solana public key, modelled by its byte string (`bytes(PublicKey(...))`). -/
abbrev Pubkey := List Nat

/-- `solana.transaction.AccountMeta` (a NamedTuple of pubkey and two flags). -/
structure AccountMeta where
  pubkey : Pubkey
  is_signer : Bool
  is_writable : Bool
deriving DecidableEq

/-- `solana.transaction.TransactionInstruction`. -/
structure TransactionInstruction where
  program_id : Pubkey
  data : List Nat
  keys : List AccountMeta
deriving DecidableEq

/-- `solana.transaction.Transaction`: the list of added instructions. -/
structure SolanaTransaction where
  instructions : List TransactionInstruction
deriving DecidableEq

/-- Little-endian encoding `v.to_bytes(n, byteorder='little')` (for `v < 256^n`). -/
def toLEBytes : Nat → Nat → List Nat
  | 0, _ => []
  | n + 1, v => (v % 256) :: toLEBytes n (v / 256)

/-- Little-endian decoding `int.from_bytes(bs, 'little')`. -/
def fromLEBytes : List Nat → Nat
  | [] => 0
  | b :: bs => b + 256 * fromLEBytes bs

/-- ASCII code of the lowercase hex digit of a nibble (`'0'..'9'`, `'a'..'f'`). -/
def hexDigitChar (n : Nat) : Nat := if n < 10 then 48 + n else 87 + n

/-- UTF-8 bytes of `bytes.hex()`: two lowercase hex digits per byte, high nibble first. -/
def hexOfBytes : List Nat → List Nat
  | [] => []
  | b :: bs => hexDigitChar (b / 16) :: hexDigitChar (b % 16) :: hexOfBytes bs

/-- Static data of the client and its injected external collaborators.
Fields mirror `NeonEvmClient.__init__` together with the module constants of
`solana_utils.py`; the base58 module constants (`sysinstruct`, `system`,
`keccakprog`, `ETH_TOKEN_MINT_ID`, `TOKEN_PROGRAM_ID`, `EVM_LOADER`,
collateral pool address) are carried as the pubkeys the library decodes them to. -/
structure Env where
  /-- `self.solana_wallet.public_key()` -/
  walletPubkey : Pubkey
  /-- `self.evm_loader.loader_id` -/
  loaderId : Pubkey
  /-- module constant `EVM_LOADER` as a pubkey -/
  evmLoaderConst : Pubkey
  /-- module constant `sysinstruct` as a pubkey -/
  sysinstructPk : Pubkey
  /-- module constant `system` as a pubkey -/
  systemPk : Pubkey
  /-- module constant `keccakprog` as a pubkey -/
  keccakprogPk : Pubkey
  /-- module constant `ETH_TOKEN_MINT_ID` -/
  ethTokenMint : Pubkey
  /-- `spl.token.constants.TOKEN_PROGRAM_ID` -/
  tokenProgramId : Pubkey
  /-- `self.collateral_pool_address`, computed once in `__init__` -/
  collateralPoolAddress : Pubkey
  /-- the collateral pool index (`__init__` fixes it to 2) -/
  collateralPoolIndex : Nat
  /-- injected `hashlib.sha256(..).digest()` -/
  sha256 : List Nat → Pubkey
  /-- injected `get_associated_token_address(owner, ETH_TOKEN_MINT_ID)` -/
  ataOf : Pubkey → Pubkey
  /-- injected `base58.b58decode` -/
  b58decode : String → List Nat
  /-- injected chain balance query `getBalance` (at the time of the check) -/
  balance : Pubkey → Nat
  /-- injected `eth_tx_utils.make_keccak_instruction_data` -/
  makeKeccakData : Nat → Nat → Nat → List Nat

/-- `self.collateral_pool_index_buf = collateral_pool_index.to_bytes(4, 'little')`
(line 139 of `solana_utils.py`). -/
def collateralPoolIndexBuf (env : Env) : List Nat := toLEBytes 4 env.collateralPoolIndex

/-- Per-run answers of the external oracles consulted by
`__create_instruction_data_from_tx`: the caller program account produced by
`ether2program` / `createEtherAccount`, and the triple
`(from_address, sign, msg)` returned by `eth_tx_utils.make_instruction_data_from_tx`. -/
structure TxEnv where
  callerProgram : Pubkey
  fromAddress : List Nat
  sign : List Nat
  msg : List Nat

/-- The state of an `EthereumTransaction` object (class of lines 106-120).
`solanaEtherCaller` is the attribute `_solana_ether_caller`, `storage` the
attribute `_storage` (both `None` at `__init__`).  `mangledStorage` is the
attribute `_NeonEvmClient__storage`: line 178 executes
`ethereum_transaction.__storage = None` inside class `NeonEvmClient`, and
Python name-mangles `__storage` there to `_NeonEvmClient__storage`, a separate
attribute; `none` means that attribute was never written, `some v` that it was
assigned `v`. -/
structure EthereumTransaction where
  ether_caller : List Nat
  contract_account : Pubkey
  contract_code_account : Pubkey
  trx_data : List Nat
  trx_account_metas : Option (List AccountMeta)
  iterative_steps : Nat
  solanaEtherCaller : Option Pubkey
  storage : Option Pubkey
  mangledStorage : Option (Option Pubkey)
deriving DecidableEq

/-- The enum `ExecuteMode` (lines 123-125). -/
inductive ExecuteMode where
  | SINGLE
  | ITERATIVE
deriving DecidableEq

/-- `__sol_instr_keccak` (lines 234-241). -/
def solInstrKeccak (env : Env) (keccakData : List Nat) : TransactionInstruction :=
  { program_id := env.keccakprogPk
    data := keccakData
    keys := [⟨env.keccakprogPk, false, false⟩] }

/-- The key list of `__sol_instr_05` (lines 247-272).  `caller` is the value of
`ethereum_transaction._solana_ether_caller` at the call site (resolved by
`__create_solana_ether_caller` before any builder runs). -/
def solInstr05Keys (env : Env) (tx : EthereumTransaction) (caller : Pubkey) :
    List AccountMeta :=
  [⟨env.sysinstructPk, false, false⟩,
   ⟨env.walletPubkey, true, true⟩,
   ⟨env.collateralPoolAddress, false, true⟩,
   ⟨env.ataOf env.walletPubkey, false, true⟩,
   ⟨env.ataOf caller, false, true⟩,
   ⟨env.systemPk, false, false⟩,
   ⟨tx.contract_account, false, true⟩,
   ⟨env.ataOf tx.contract_account, false, true⟩,
   ⟨tx.contract_code_account, false, true⟩,
   ⟨caller, false, true⟩,
   ⟨env.ataOf caller, false, true⟩,
   ⟨env.loaderId, false, false⟩,
   ⟨env.ethTokenMint, false, false⟩,
   ⟨env.tokenProgramId, false, false⟩,
   ⟨env.walletPubkey, false, false⟩]

/-- `__sol_instr_05` (lines 243-272): call-from-raw-ethereum-tx instruction. -/
def solInstr05 (env : Env) (tx : EthereumTransaction) (caller : Pubkey)
    (data : List Nat) : TransactionInstruction :=
  { program_id := env.loaderId
    data := [0x05] ++ collateralPoolIndexBuf env ++ data
    keys := solInstr05Keys env tx caller }

/-- The key list of `__sol_instr_09_partial_call` (lines 278-301).  `storage` is
the value of `ethereum_transaction._storage`, `caller` of
`ethereum_transaction._solana_ether_caller`, at the call site. -/
def solInstr09Keys (env : Env) (tx : EthereumTransaction)
    (storage caller : Pubkey) : List AccountMeta :=
  [⟨storage, false, true⟩,
   ⟨env.sysinstructPk, false, false⟩,
   ⟨env.walletPubkey, true, true⟩,
   ⟨env.collateralPoolAddress, false, true⟩,
   ⟨env.systemPk, false, false⟩,
   ⟨tx.contract_account, false, true⟩,
   ⟨env.ataOf tx.contract_account, false, true⟩,
   ⟨tx.contract_code_account, false, true⟩,
   ⟨caller, false, true⟩,
   ⟨env.ataOf caller, false, true⟩,
   ⟨env.sysinstructPk, false, false⟩,
   ⟨env.loaderId, false, false⟩,
   ⟨env.ethTokenMint, false, false⟩,
   ⟨env.tokenProgramId, false, false⟩,
   ⟨env.walletPubkey, false, false⟩]

/-- `__sol_instr_09_partial_call` (lines 274-301). -/
def solInstr09PartialCall (env : Env) (tx : EthereumTransaction)
    (storage caller : Pubkey) (stepCount : Nat) (data : List Nat) :
    TransactionInstruction :=
  { program_id := env.loaderId
    data := [0x09] ++ collateralPoolIndexBuf env ++ toLEBytes 8 stepCount ++ data
    keys := solInstr09Keys env tx storage caller }

/-- The key list of `__sol_instr_10_continue` (lines 307-330). -/
def solInstr10Keys (env : Env) (tx : EthereumTransaction)
    (storage caller : Pubkey) : List AccountMeta :=
  [⟨storage, false, true⟩,
   ⟨env.walletPubkey, true, true⟩,
   ⟨env.ataOf env.walletPubkey, false, true⟩,
   ⟨env.ataOf caller, false, true⟩,
   ⟨env.systemPk, false, false⟩,
   ⟨tx.contract_account, false, true⟩,
   ⟨env.ataOf tx.contract_account, false, true⟩,
   ⟨tx.contract_code_account, false, true⟩,
   ⟨caller, false, true⟩,
   ⟨env.ataOf caller, false, true⟩,
   ⟨env.sysinstructPk, false, false⟩,
   ⟨env.loaderId, false, false⟩,
   ⟨env.ethTokenMint, false, false⟩,
   ⟨env.tokenProgramId, false, false⟩,
   ⟨env.walletPubkey, false, false⟩]

/-- `__sol_instr_10_continue` (lines 303-330). -/
def solInstr10Continue (env : Env) (tx : EthereumTransaction)
    (storage caller : Pubkey) (stepCount : Nat) : TransactionInstruction :=
  { program_id := env.loaderId
    data := [0x0A] ++ toLEBytes 8 stepCount
    keys := solInstr10Keys env tx storage caller }

/-- The semantic payload of `createAccountWithSeed` (lines 368-392): the fields
handed to `SYSTEM_INSTRUCTIONS_LAYOUT.build` for a create-account-with-seed
system instruction submitted by `__create_storage_account`. -/
structure CreateAccountWithSeedArgs where
  funding : Pubkey
  base : Pubkey
  /-- the seed, as its utf8 bytes (`bytes(seed, 'utf8')`) -/
  seed : List Nat
  lamports : Nat
  space : Nat
  program : Pubkey
deriving DecidableEq

/-- The storage address derived in `__create_storage_account` (lines 211-214):
`PublicKey(sha256(bytes(wallet pk) + bytes(seed,'utf8') + bytes(PublicKey(loader_id))).digest())`.
`seed` is passed as its utf8 bytes. -/
def storageAddressOf (env : Env) (seed : List Nat) : Pubkey :=
  env.sha256 (env.walletPubkey ++ seed ++ env.loaderId)

/-- `__create_storage_account` (lines 210-224): derives the storage address and,
when its balance is zero, submits a create-account-with-seed transaction funding
`10 ** 9` lamports with `128 * 1024` bytes of space, owner `EVM_LOADER`. -/
def createStorageAccount (env : Env) (seed : List Nat) :
    Pubkey × Option CreateAccountWithSeedArgs :=
  let storage := storageAddressOf env seed
  if env.balance storage = 0 then
    (storage,
     some { funding := env.walletPubkey
            base := env.walletPubkey
            seed := seed
            lamports := 10 ^ 9
            space := 128 * 1024
            program := env.evmLoaderConst })
  else (storage, none)

/-- An inner instruction entry of a confirmed-transaction RPC result:
`result['result']['meta']['innerInstructions'][i]['instructions'][j]`;
its `data` field is a base58 string. -/
structure InnerInstruction where
  data : String
deriving DecidableEq

/-- One group of the `innerInstructions` list of a confirmed-transaction result. -/
structure InnerInstructionGroup where
  instructions : List InnerInstruction
deriving DecidableEq

/-- The part of the RPC response inspected by the iterative loop:
`result['result']['meta']['innerInstructions']`. -/
structure RPCResult where
  innerInstructions : List InnerInstructionGroup
deriving DecidableEq

/-- Outcome of inspecting one submission result (lines 174-177):
`absent` when `innerInstructions` is empty or its first group's instruction
list is empty (the two truthiness checks of line 174-175 fail); otherwise the
data of the last instruction of the first group is base58-decoded and
`found` / `other` report whether its first byte equals 6; `emptyData` marks a
decode to zero bytes, where the Python expression `data[0]` raises IndexError. -/
inductive MarkerCheck where
  | absent
  | found
  | other
  | emptyData
deriving DecidableEq

/-- The inspection of lines 174-177 of one submission result. -/
def markerCheck (env : Env) (r : RPCResult) : MarkerCheck :=
  match r.innerInstructions with
  | [] => .absent
  | g :: _ =>
    match g.instructions.getLast? with
    | none => .absent
    | some i =>
      match (env.b58decode i.data).head? with
      | none => .emptyData
      | some b => if b = 6 then .found else .other

/-- `List.modifyLast`-style helper: mutate the last element of a list in place,
modelling `trx.instructions[-1]` assignment semantics. -/
def modifyLast {α : Type} (f : α → α) : List α → List α
  | [] => []
  | [a] => [f a]
  | a :: b :: rest => a :: modifyLast f (b :: rest)

/-- The mutation performed by `__send_neon_transaction` (lines 332-336) before
submitting: when `trx_account_metas` is not `None`, extend the key list of the
last instruction with those metas. -/
def sendNeonPrep (tx : EthereumTransaction) (strx : SolanaTransaction) :
    SolanaTransaction :=
  match tx.trx_account_metas with
  | none => strx
  | some metas =>
    { instructions :=
        modifyLast (fun i => { i with keys := i.keys ++ metas }) strx.instructions }

/-- How a bounded unfolding of the `while True` loop of lines 168-179 ends:
`fuelOut` when the bound was reached without the loop ending on its own (the
Python loop would keep going), `indexError` when `data[0]` raised on empty
decoded data, `finished r` when the completion marker was observed in `r` and
the function returned `r`. -/
inductive LoopOutcome where
  | fuelOut
  | indexError
  | finished (result : RPCResult)
deriving DecidableEq

/-- Result of a bounded unfolding of the continuation loop: the Solana
transactions submitted, the way the unfolding ended, and the state of the
`EthereumTransaction` object afterwards (it is mutated in place in Python). -/
structure LoopResult where
  trace : List SolanaTransaction
  outcome : LoopOutcome
  txFinal : EthereumTransaction
deriving DecidableEq

/-- The `while True` loop of lines 168-179, unfolded `fuel` times; `i` indexes
the submissions: submission number `i` receives `oracle i` as its RPC result.
Each iteration builds a fresh one-instruction continue transaction from the
(by now fixed) transaction state, submits it through `__send_neon_transaction`,
and inspects the result; on the completion marker, line 178 writes the
name-mangled attribute (`mangledStorage := some none`) and the result is
returned. -/
def continueLoop (env : Env) (oracle : Nat → RPCResult) (tx : EthereumTransaction)
    (storage caller : Pubkey) : Nat → Nat → LoopResult
  | 0, _ => ⟨[], .fuelOut, tx⟩
  | fuel + 1, i =>
    let strx := sendNeonPrep tx
      ⟨[solInstr10Continue env tx storage caller tx.iterative_steps]⟩
    match markerCheck env (oracle i) with
    | .found => ⟨[strx], .finished (oracle i), { tx with mangledStorage := some none }⟩
    | .emptyData => ⟨[strx], .indexError, tx⟩
    | .absent =>
      let rest := continueLoop env oracle tx storage caller fuel (i + 1)
      ⟨strx :: rest.trace, rest.outcome, rest.txFinal⟩
    | .other =>
      let rest := continueLoop env oracle tx storage caller fuel (i + 1)
      ⟨strx :: rest.trace, rest.outcome, rest.txFinal⟩

/-- Result of one `send_ethereum_trx*` call: the create-account-with-seed
submission of `__create_storage_account` if one was made, the Solana
transactions submitted through `__send_neon_transaction` in order, the outcome,
and the state of the `EthereumTransaction` object afterwards. -/
structure RunOutput where
  storageCreate : Option CreateAccountWithSeedArgs
  trace : List SolanaTransaction
  outcome : LoopOutcome
  txFinal : EthereumTransaction
deriving DecidableEq

/-- `send_ethereum_trx_iterative` (lines 151-179), with the loop unfolded
`fuel` times.  `__create_instruction_data_from_tx` resolves
`_solana_ether_caller` to the caller program account and yields
`(from_address, sign, msg)`; when `_storage` is `None` a storage account is
derived from the hex string of the first 8 signature bytes and assigned; the
keccak + partial-call batch is submission 0 (its result is not inspected), and
the continue submissions 1, 2, ... are inspected by the loop. -/
def sendEthereumTrxIterative (env : Env) (txe : TxEnv) (oracle : Nat → RPCResult)
    (tx0 : EthereumTransaction) (fuel : Nat) : RunOutput :=
  let tx1 := { tx0 with solanaEtherCaller := some txe.callerProgram }
  let seed := hexOfBytes (txe.sign.take 8)
  let resolved :=
    match tx1.storage with
    | none =>
      let pr := createStorageAccount env seed
      ({ tx1 with storage := some pr.1 }, pr.1, pr.2)
    | some st => (tx1, st, none)
  let tx2 := resolved.1
  let storage := resolved.2.1
  let data := txe.fromAddress ++ txe.sign ++ txe.msg
  let keccakData := env.makeKeccakData 1 txe.msg.length 13
  let firstTrx := sendNeonPrep tx2
    ⟨[solInstrKeccak env keccakData,
      solInstr09PartialCall env tx2 storage txe.callerProgram tx2.iterative_steps data]⟩
  let lr := continueLoop env oracle tx2 storage txe.callerProgram fuel 1
  { storageCreate := resolved.2.2
    trace := firstTrx :: lr.trace
    outcome := lr.outcome
    txFinal := lr.txFinal }

/-- `send_ethereum_trx_single` (lines 181-192): one keccak + call-from-raw
batch, submission 0, whose result is returned directly. -/
def sendEthereumTrxSingle (env : Env) (txe : TxEnv) (oracle : Nat → RPCResult)
    (tx0 : EthereumTransaction) : RunOutput :=
  let tx1 := { tx0 with solanaEtherCaller := some txe.callerProgram }
  let data := txe.fromAddress ++ txe.sign ++ txe.msg
  let keccakData := env.makeKeccakData 1 txe.msg.length 5
  let strx := sendNeonPrep tx1
    ⟨[solInstrKeccak env keccakData, solInstr05 env tx1 txe.callerProgram data]⟩
  { storageCreate := none
    trace := [strx]
    outcome := .finished (oracle 0)
    txFinal := tx1 }

/-- `send_ethereum_trx` (lines 144-149): dispatch on the execution mode. -/
def sendEthereumTrx (env : Env) (txe : TxEnv) (oracle : Nat → RPCResult)
    (mode : ExecuteMode) (tx0 : EthereumTransaction) (fuel : Nat) : RunOutput :=
  match mode with
  | .SINGLE => sendEthereumTrxSingle env txe oracle tx0
  | .ITERATIVE => sendEthereumTrxIterative env txe oracle tx0 fuel

/-- The storage account an iterative run uses: the one already associated with
the transaction, or the freshly derived one (lines 154-155). -/
def resolveStorage (env : Env) (txe : TxEnv) (tx0 : EthereumTransaction) : Pubkey :=
  match tx0.storage with
  | some st => st
  | none => storageAddressOf env (hexOfBytes (txe.sign.take 8))

/-- Arguments of the `CREATE_ACCOUNT_LAYOUT` construct struct (lines 30-35). -/
structure CreateAccountLayoutArgs where
  lamports : Nat
  space : Nat
  ether : List Nat
  nonce : Nat
deriving DecidableEq

/-- `CREATE_ACCOUNT_LAYOUT.build`: two `Int64ul` fields, a 20-byte field and an
`Int8ul` field, in the fixed order lamports, space, ether, nonce; construct
raises (here: `none`) when an integer is out of range or the byte field does
not have length 20. -/
def buildCreateAccountLayout (a : CreateAccountLayoutArgs) : Option (List Nat) :=
  if a.lamports < 2 ^ 64 ∧ a.space < 2 ^ 64 ∧ a.ether.length = 20 ∧
      a.ether.all (fun b => b < 256) = true ∧ a.nonce < 2 ^ 8 then
    some (toLEBytes 8 a.lamports ++ toLEBytes 8 a.space ++ a.ether ++ [a.nonce])
  else none

/-- `CREATE_ACCOUNT_LAYOUT.parse`: reads 8 + 8 + 20 + 1 bytes sequentially
(trailing bytes are ignored by construct's `parse`); fails (here: `none`) when
the input is shorter than 37 bytes. -/
def parseCreateAccountLayout (bs : List Nat) : Option CreateAccountLayoutArgs :=
  if 37 ≤ bs.length then
    some { lamports := fromLEBytes (bs.take 8)
           space := fromLEBytes ((bs.drop 8).take 8)
           ether := (bs.drop 16).take 20
           nonce := ((bs.drop 36).headD 0) }
  else none

/-- The resolved transaction state used by every submission of an iterative
run: caller resolved, storage assigned.  Derived view used to state theorems
about `sendEthereumTrxIterative`. -/
def txResolved (env : Env) (txe : TxEnv) (tx0 : EthereumTransaction) :
    EthereumTransaction :=
  { tx0 with solanaEtherCaller := some txe.callerProgram
             storage := some (resolveStorage env txe tx0) }

/-- The create-account-with-seed submission an iterative run makes, if any.
Derived view used to state theorems about `sendEthereumTrxIterative`. -/
def iterStorageCreate (env : Env) (txe : TxEnv) (tx0 : EthereumTransaction) :
    Option CreateAccountWithSeedArgs :=
  match tx0.storage with
  | some _ => none
  | none => (createStorageAccount env (hexOfBytes (txe.sign.take 8))).2

/-- Account list of the call-from-raw-tx instruction as written in section 6 of
the specification: system-instructions-sysvar, operator(signer,writable),
collateral-pool(writable), operator-token-account(writable),
caller-token-account(writable), system-program, contract-account(writable),
contract-token-account(writable), contract-code-account(writable),
caller-account(writable), caller-token-account(writable, duplicate),
program-id, token-mint, token-program, operator(read-only, duplicate).
Transcribed from the spec's words, to be compared with `solInstr05Keys`. -/
def specCallFromRawKeys (env : Env) (contractAccount contractCodeAccount caller : Pubkey) :
    List AccountMeta :=
  [⟨env.sysinstructPk, false, false⟩,
   ⟨env.walletPubkey, true, true⟩,
   ⟨env.collateralPoolAddress, false, true⟩,
   ⟨env.ataOf env.walletPubkey, false, true⟩,
   ⟨env.ataOf caller, false, true⟩,
   ⟨env.systemPk, false, false⟩,
   ⟨contractAccount, false, true⟩,
   ⟨env.ataOf contractAccount, false, true⟩,
   ⟨contractCodeAccount, false, true⟩,
   ⟨caller, false, true⟩,
   ⟨env.ataOf caller, false, true⟩,
   ⟨env.loaderId, false, false⟩,
   ⟨env.ethTokenMint, false, false⟩,
   ⟨env.tokenProgramId, false, false⟩,
   ⟨env.walletPubkey, false, false⟩]

/-- Account list of the partial-call instruction as written in section 6 of the
specification: storage-account(writable), system-instructions-sysvar,
operator(signer,writable), collateral-pool(writable), system-program,
contract-account(writable), contract-token-account(writable),
contract-code-account(writable), caller-account(writable),
caller-token-account(writable), system-instructions-sysvar(duplicate),
program-id, token-mint, token-program, operator(duplicate).
Transcribed from the spec's words, to be compared with `solInstr09Keys`. -/
def specPartialCallKeys (env : Env)
    (storage contractAccount contractCodeAccount caller : Pubkey) :
    List AccountMeta :=
  [⟨storage, false, true⟩,
   ⟨env.sysinstructPk, false, false⟩,
   ⟨env.walletPubkey, true, true⟩,
   ⟨env.collateralPoolAddress, false, true⟩,
   ⟨env.systemPk, false, false⟩,
   ⟨contractAccount, false, true⟩,
   ⟨env.ataOf contractAccount, false, true⟩,
   ⟨contractCodeAccount, false, true⟩,
   ⟨caller, false, true⟩,
   ⟨env.ataOf caller, false, true⟩,
   ⟨env.sysinstructPk, false, false⟩,
   ⟨env.loaderId, false, false⟩,
   ⟨env.ethTokenMint, false, false⟩,
   ⟨env.tokenProgramId, false, false⟩,
   ⟨env.walletPubkey, false, false⟩]

/-- Account list of the continue instruction as written in section 6 of the
specification: storage-account(writable), operator(signer,writable),
operator-token-account(writable), caller-token-account(writable),
system-program, contract-account(writable), contract-token-account(writable),
contract-code-account(writable), caller-account(writable),
caller-token-account(writable, duplicate), system-instructions-sysvar,
program-id, token-mint, token-program, operator(duplicate).
Transcribed from the spec's words, to be compared with `solInstr10Keys`. -/
def specContinueKeys (env : Env)
    (storage contractAccount contractCodeAccount caller : Pubkey) :
    List AccountMeta :=
  [⟨storage, false, true⟩,
   ⟨env.walletPubkey, true, true⟩,
   ⟨env.ataOf env.walletPubkey, false, true⟩,
   ⟨env.ataOf caller, false, true⟩,
   ⟨env.systemPk, false, false⟩,
   ⟨contractAccount, false, true⟩,
   ⟨env.ataOf contractAccount, false, true⟩,
   ⟨contractCodeAccount, false, true⟩,
   ⟨caller, false, true⟩,
   ⟨env.ataOf caller, false, true⟩,
   ⟨env.sysinstructPk, false, false⟩,
   ⟨env.loaderId, false, false⟩,
   ⟨env.ethTokenMint, false, false⟩,
   ⟨env.tokenProgramId, false, false⟩,
   ⟨env.walletPubkey, false, false⟩]

/-- A small concrete environment for evaluating the model on closed inputs.
The injected collaborators are stubs: the hash is the identity on byte strings,
the associated-token derivation prepends a tag byte, and the base58 decoder
maps the strings used by the concrete oracles to fixed byte strings. -/
def envC : Env :=
  { walletPubkey := [1]
    loaderId := [2]
    evmLoaderConst := [3]
    sysinstructPk := [4]
    systemPk := [5]
    keccakprogPk := [6]
    ethTokenMint := [7]
    tokenProgramId := [8]
    collateralPoolAddress := [9]
    collateralPoolIndex := 2
    sha256 := fun l => l
    ataOf := fun p => 10 :: p
    b58decode := fun s => if s = "f" then [6] else if s = "e" then [] else [7]
    balance := fun _ => 0
    makeKeccakData := fun _ _ _ => [11] }

/-- Concrete per-run oracle answers. -/
def txeC : TxEnv :=
  { callerProgram := [12], fromAddress := [13], sign := [171], msg := [14] }

/-- A concrete freshly constructed `EthereumTransaction` (no extra metas). -/
def tx0C : EthereumTransaction :=
  { ether_caller := [15]
    contract_account := [16]
    contract_code_account := [17]
    trx_data := [18]
    trx_account_metas := none
    iterative_steps := 500
    solanaEtherCaller := none
    storage := none
    mangledStorage := none }

/-- A concrete transaction carrying an extra account-meta list. -/
def txMetasC : EthereumTransaction :=
  { tx0C with trx_account_metas := some [⟨[19], false, false⟩] }

/-- Oracle whose every result carries the completion marker. -/
def oracleFoundC : Nat → RPCResult := fun _ => ⟨[⟨[⟨"f"⟩]⟩]⟩

/-- Oracle whose every result decodes to a first byte different from 6. -/
def oracleOtherC : Nat → RPCResult := fun _ => ⟨[⟨[⟨"x"⟩]⟩]⟩

/-- Oracle whose every result has no inner instructions. -/
def oracleAbsentC : Nat → RPCResult := fun _ => ⟨[]⟩

/-- Oracle whose every result has an inner instruction whose data decodes to
zero bytes. -/
def oracleEmptyC : Nat → RPCResult := fun _ => ⟨[⟨[⟨"e"⟩]⟩]⟩

/-- Concrete create-account-layout arguments used to evaluate the codec. -/
def aC : CreateAccountLayoutArgs :=
  { lamports := 5, space := 7, ether := List.replicate 20 0, nonce := 9 }

lemma createStorageAccount_fst (env : Env) (seed : List Nat) :
    (createStorageAccount env seed).1 = storageAddressOf env seed := by
  simp only [createStorageAccount]
  split <;> rfl

lemma createStorageAccount_snd (env : Env) (seed : List Nat) :
    (createStorageAccount env seed).2 =
      if env.balance (storageAddressOf env seed) = 0 then
        some { funding := env.walletPubkey
               base := env.walletPubkey
               seed := seed
               lamports := 10 ^ 9
               space := 128 * 1024
               program := env.evmLoaderConst }
      else none := by
  simp only [createStorageAccount]
  split <;> rfl

lemma continueLoop_txFinal_storage (env : Env) (oracle : Nat → RPCResult)
    (tx : EthereumTransaction) (s c : Pubkey) :
    ∀ fuel i, (continueLoop env oracle tx s c fuel i).txFinal.storage = tx.storage := by
  intro fuel
  induction fuel with
  | zero => intro i; rfl
  | succ n ih =>
    intro i
    simp only [continueLoop]
    cases hm : markerCheck env (oracle i) <;> simp [hm, ih]

lemma continueLoop_trace_mem (env : Env) (oracle : Nat → RPCResult)
    (tx : EthereumTransaction) (s c : Pubkey) :
    ∀ fuel i st, st ∈ (continueLoop env oracle tx s c fuel i).trace →
      st = sendNeonPrep tx ⟨[solInstr10Continue env tx s c tx.iterative_steps]⟩ := by
  intro fuel
  induction fuel with
  | zero => intro i st h; simp [continueLoop] at h
  | succ n ih =>
    intro i st h
    simp only [continueLoop] at h
    cases hm : markerCheck env (oracle i) <;> simp only [hm] at h
    case absent =>
      rcases List.mem_cons.mp h with h | h
      · exact h
      · exact ih (i + 1) st h
    case found => simpa using h
    case other =>
      rcases List.mem_cons.mp h with h | h
      · exact h
      · exact ih (i + 1) st h
    case emptyData => simpa using h

lemma continueLoop_finished (env : Env) (oracle : Nat → RPCResult)
    (tx : EthereumTransaction) (s c : Pubkey) :
    ∀ fuel i r, (continueLoop env oracle tx s c fuel i).outcome = .finished r →
      ∃ j, i ≤ j ∧ j < i + fuel ∧ r = oracle j ∧ markerCheck env r = .found ∧
        ∀ k, i ≤ k → k < j →
          markerCheck env (oracle k) = .absent ∨ markerCheck env (oracle k) = .other := by
  intro fuel
  induction fuel with
  | zero => intro i r h; exact absurd h (by simp [continueLoop])
  | succ n ih =>
    intro i r h
    simp only [continueLoop] at h
    cases hm : markerCheck env (oracle i) <;> simp only [hm] at h
    case found =>
      have hr : r = oracle i := by
        have := h
        simp only [LoopOutcome.finished.injEq] at this
        exact this.symm
      refine ⟨i, le_refl i, by omega, hr, hr ▸ hm, fun k hk1 hk2 => by omega⟩
    case emptyData => simp at h
    case absent =>
      obtain ⟨j, h1, h2, h3, h4, h5⟩ := ih (i + 1) r h
      refine ⟨j, by omega, by omega, h3, h4, fun k hk1 hk2 => ?_⟩
      rcases Nat.eq_or_lt_of_le hk1 with rfl | hk
      · exact Or.inl hm
      · exact h5 k (by omega) hk2
    case other =>
      obtain ⟨j, h1, h2, h3, h4, h5⟩ := ih (i + 1) r h
      refine ⟨j, by omega, by omega, h3, h4, fun k hk1 hk2 => ?_⟩
      rcases Nat.eq_or_lt_of_le hk1 with rfl | hk
      · exact Or.inr hm
      · exact h5 k (by omega) hk2

lemma continueLoop_step (env : Env) (oracle : Nat → RPCResult)
    (tx : EthereumTransaction) (s c : Pubkey) (fuel i : Nat)
    (h : markerCheck env (oracle i) = .absent ∨ markerCheck env (oracle i) = .other) :
    continueLoop env oracle tx s c (fuel + 1) i =
      ⟨sendNeonPrep tx ⟨[solInstr10Continue env tx s c tx.iterative_steps]⟩ ::
          (continueLoop env oracle tx s c fuel (i + 1)).trace,
        (continueLoop env oracle tx s c fuel (i + 1)).outcome,
        (continueLoop env oracle tx s c fuel (i + 1)).txFinal⟩ := by
  rcases h with h | h <;> simp [continueLoop, h]

lemma continueLoop_never (env : Env) (oracle : Nat → RPCResult)
    (tx : EthereumTransaction) (s c : Pubkey) :
    ∀ fuel i,
      (∀ k, i ≤ k →
        markerCheck env (oracle k) = .absent ∨ markerCheck env (oracle k) = .other) →
      (continueLoop env oracle tx s c fuel i).outcome = .fuelOut ∧
      (continueLoop env oracle tx s c fuel i).trace.length = fuel := by
  intro fuel
  induction fuel with
  | zero => intro i _; exact ⟨rfl, rfl⟩
  | succ n ih =>
    intro i h
    have hi := h i (le_refl i)
    have hrec := ih (i + 1) (fun k hk => h k (by omega))
    rcases hi with hi | hi <;> simp [continueLoop, hi, hrec.1, hrec.2]

lemma sendIterative_unfold (env : Env) (txe : TxEnv) (oracle : Nat → RPCResult)
    (tx0 : EthereumTransaction) (fuel : Nat) :
    sendEthereumTrxIterative env txe oracle tx0 fuel =
      { storageCreate := iterStorageCreate env txe tx0
        trace := sendNeonPrep (txResolved env txe tx0)
            ⟨[solInstrKeccak env (env.makeKeccakData 1 txe.msg.length 13),
              solInstr09PartialCall env (txResolved env txe tx0)
                (resolveStorage env txe tx0) txe.callerProgram tx0.iterative_steps
                (txe.fromAddress ++ txe.sign ++ txe.msg)]⟩
          :: (continueLoop env oracle (txResolved env txe tx0)
                (resolveStorage env txe tx0) txe.callerProgram fuel 1).trace
        outcome := (continueLoop env oracle (txResolved env txe tx0)
            (resolveStorage env txe tx0) txe.callerProgram fuel 1).outcome
        txFinal := (continueLoop env oracle (txResolved env txe tx0)
            (resolveStorage env txe tx0) txe.callerProgram fuel 1).txFinal } := by
  obtain ⟨ec, ca, cca, td, tam, its, sec, st, ms⟩ := tx0
  cases st with
  | none =>
    simp [sendEthereumTrxIterative, txResolved, resolveStorage, iterStorageCreate,
      createStorageAccount_fst]
  | some stv =>
    simp [sendEthereumTrxIterative, txResolved, resolveStorage, iterStorageCreate]

lemma modifyLast_concat {α : Type} (f : α → α) :
    ∀ (l : List α) (a : α), modifyLast f (l ++ [a]) = l ++ [f a] := by
  intro l
  induction l with
  | nil => intro a; rfl
  | cons x xs ih =>
    intro a
    cases xs with
    | nil => rfl
    | cons y ys =>
      have hy := ih a
      simp only [List.cons_append] at hy ⊢
      rw [modifyLast, hy]

lemma sendNeonPrep_getLast (tx : EthereumTransaction)
    (l : List TransactionInstruction) (a : TransactionInstruction) :
    (sendNeonPrep tx ⟨l ++ [a]⟩).instructions.getLast? =
      some { a with keys := a.keys ++ tx.trx_account_metas.getD [] } := by
  cases h : tx.trx_account_metas with
  | none => simp [sendNeonPrep, h, List.getLast?_concat]
  | some m => simp [sendNeonPrep, h, modifyLast_concat, List.getLast?_concat]

lemma toLEBytes_length : ∀ n v, (toLEBytes n v).length = n := by
  intro n
  induction n with
  | zero => intro v; rfl
  | succ m ih => intro v; simp [toLEBytes, ih]

lemma fromLEBytes_toLEBytes : ∀ n v, v < 256 ^ n → fromLEBytes (toLEBytes n v) = v := by
  intro n
  induction n with
  | zero =>
    intro v h
    simp only [pow_zero, Nat.lt_one_iff] at h
    simp [toLEBytes, fromLEBytes, h]
  | succ m ih =>
    intro v h
    have h2 : v / 256 < 256 ^ m := by
      have hp : (256 : Nat) ^ (m + 1) = 256 * 256 ^ m := by ring
      rw [hp] at h
      exact Nat.div_lt_of_lt_mul h
    simp only [toLEBytes, fromLEBytes, ih (v / 256) h2]
    omega

/-- C1: in an iterative run, after each continue-batch submission the result is
returned exactly when the marker check of the inspected result reports the
first decoded byte 6 (part 1: a returned result is the oracle answer of some
submission `j` whose check is `found`, every earlier loop submission having
checked `absent` or `other`); when inner instructions are absent or the first
byte differs, another continue batch is submitted and inspected (part 2: one
loop step prepends one more prepared continue transaction to the trace and
recurses at the next submission index); part 3 restates part 1 for
`sendEthereumTrxIterative` itself, whose loop submissions start at index 1. -/
theorem claim_C1 (env : Env) (oracle : Nat → RPCResult) (tx : EthereumTransaction)
    (storage caller : Pubkey) (txe : TxEnv) (tx0 : EthereumTransaction) :
    (∀ fuel i r, (continueLoop env oracle tx storage caller fuel i).outcome = .finished r →
      ∃ j, i ≤ j ∧ j < i + fuel ∧ r = oracle j ∧ markerCheck env r = .found ∧
        ∀ k, i ≤ k → k < j →
          markerCheck env (oracle k) = .absent ∨ markerCheck env (oracle k) = .other) ∧
    (∀ fuel i,
      (markerCheck env (oracle i) = .absent ∨ markerCheck env (oracle i) = .other) →
      continueLoop env oracle tx storage caller (fuel + 1) i =
        ⟨sendNeonPrep tx ⟨[solInstr10Continue env tx storage caller tx.iterative_steps]⟩ ::
            (continueLoop env oracle tx storage caller fuel (i + 1)).trace,
          (continueLoop env oracle tx storage caller fuel (i + 1)).outcome,
          (continueLoop env oracle tx storage caller fuel (i + 1)).txFinal⟩) ∧
    (∀ fuel r, (sendEthereumTrxIterative env txe oracle tx0 fuel).outcome = .finished r →
      ∃ j, 1 ≤ j ∧ r = oracle j ∧ markerCheck env r = .found ∧
        ∀ k, 1 ≤ k → k < j →
          markerCheck env (oracle k) = .absent ∨ markerCheck env (oracle k) = .other) := by
  refine ⟨fun fuel i r h => continueLoop_finished env oracle tx storage caller fuel i r h,
          fun fuel i h => continueLoop_step env oracle tx storage caller fuel i h,
          fun fuel r h => ?_⟩
  rw [sendIterative_unfold] at h
  obtain ⟨j, h1, _, h3, h4, h5⟩ :=
    continueLoop_finished env oracle (txResolved env txe tx0) (resolveStorage env txe tx0)
      txe.callerProgram fuel 1 r h
  exact ⟨j, h1, h3, h4, h5⟩

/-- Witness for C1: one loop step of a concrete run whose inspected result
decodes to a first byte different from 6 submits another continue batch. -/
theorem claim_C1_witness :
    continueLoop envC oracleOtherC tx0C [1] [12] (0 + 1) 1 =
      ⟨sendNeonPrep tx0C ⟨[solInstr10Continue envC tx0C [1] [12] tx0C.iterative_steps]⟩ ::
          (continueLoop envC oracleOtherC tx0C [1] [12] 0 (1 + 1)).trace,
        (continueLoop envC oracleOtherC tx0C [1] [12] 0 (1 + 1)).outcome,
        (continueLoop envC oracleOtherC tx0C [1] [12] 0 (1 + 1)).txFinal⟩ :=
  (claim_C1 envC oracleOtherC tx0C [1] [12] txeC tx0C).2.1 0 1 (Or.inr (by decide))

/-- C2 (code behavior at the failing input): a concrete iterative run that
observes the completion marker returns with the `_storage` attribute still
holding the storage account — line 178 writes the name-mangled attribute
`_NeonEvmClient__storage` instead of `_storage`, so the storage association is
not cleared, contradicting the claim that `_storage` is `None` afterwards. -/
theorem claim_C2 :
    (sendEthereumTrxIterative envC txeC oracleFoundC tx0C 1).outcome
        = .finished (oracleFoundC 1) ∧
    (sendEthereumTrxIterative envC txeC oracleFoundC tx0C 1).txFinal.storage
        = some [1, 97, 98, 2] ∧
    (sendEthereumTrxIterative envC txeC oracleFoundC tx0C 1).txFinal.storage ≠ none ∧
    (sendEthereumTrxIterative envC txeC oracleFoundC tx0C 1).txFinal.mangledStorage
        = some none := by
  refine ⟨by decide, by decide, by decide, by decide⟩

/-- C3: for every input, the emitted account-key list of each instruction kind
(call-from-raw-tx, partial-call, continue) equals, element by element, the
fixed ordering of section 6 of the specification. -/
theorem claim_C3 (env : Env) (tx : EthereumTransaction) (storage caller : Pubkey)
    (data : List Nat) (stepCount : Nat) :
    (solInstr05 env tx caller data).keys =
      specCallFromRawKeys env tx.contract_account tx.contract_code_account caller ∧
    (solInstr09PartialCall env tx storage caller stepCount data).keys =
      specPartialCallKeys env storage tx.contract_account tx.contract_code_account caller ∧
    (solInstr10Continue env tx storage caller stepCount).keys =
      specContinueKeys env storage tx.contract_account tx.contract_code_account caller :=
  ⟨rfl, rfl, rfl⟩

/-- C4: when the transaction has no storage account yet, the iterative run
derives the storage address as sha256(wallet public key bytes ++ utf8 bytes of
the hex string of the first 8 signature bytes ++ loader program id bytes), and
a create-account-with-seed submission funding `10 ^ 9` lamports with
`128 * 1024` bytes of space is made exactly when that address's balance is
zero. -/
theorem claim_C4 (env : Env) (txe : TxEnv) (oracle : Nat → RPCResult)
    (tx0 : EthereumTransaction) (fuel : Nat) (h : tx0.storage = none) :
    resolveStorage env txe tx0 =
      env.sha256 (env.walletPubkey ++ hexOfBytes (txe.sign.take 8) ++ env.loaderId) ∧
    ((sendEthereumTrxIterative env txe oracle tx0 fuel).storageCreate.isSome ↔
      env.balance (resolveStorage env txe tx0) = 0) ∧
    (∀ c, (sendEthereumTrxIterative env txe oracle tx0 fuel).storageCreate = some c →
      c.lamports = 10 ^ 9 ∧ c.space = 128 * 1024 ∧
      c.seed = hexOfBytes (txe.sign.take 8) ∧ c.base = env.walletPubkey ∧
      c.funding = env.walletPubkey ∧ c.program = env.evmLoaderConst) := by
  have hres : resolveStorage env txe tx0 =
      storageAddressOf env (hexOfBytes (txe.sign.take 8)) := by
    simp [resolveStorage, h]
  refine ⟨by rw [hres]; rfl, ?_, ?_⟩
  · rw [sendIterative_unfold]
    simp only [iterStorageCreate, h]
    rw [createStorageAccount_snd, hres]
    by_cases hb : env.balance (storageAddressOf env (hexOfBytes (txe.sign.take 8))) = 0 <;>
      simp [hb]
  · intro c hc
    rw [sendIterative_unfold] at hc
    simp only [iterStorageCreate, h] at hc
    rw [createStorageAccount_snd] at hc
    by_cases hb : env.balance (storageAddressOf env (hexOfBytes (txe.sign.take 8))) = 0
    · rw [if_pos hb] at hc
      have := Option.some.inj hc
      subst this
      exact ⟨rfl, rfl, rfl, rfl, rfl, rfl⟩
    · rw [if_neg hb] at hc
      exact absurd hc (by simp)

/-- Witness for C4: the storage-creation iff, instantiated at a concrete
run whose transaction starts without a storage account. -/
theorem claim_C4_witness :
    (sendEthereumTrxIterative envC txeC oracleFoundC tx0C 1).storageCreate.isSome ↔
      envC.balance (resolveStorage envC txeC tx0C) = 0 :=
  (claim_C4 envC txeC oracleFoundC tx0C 1 rfl).2.1

/-- C5: dispatching with mode SINGLE never creates or assigns a storage
account (the `_storage` field is unchanged and no create-with-seed submission
is made), while with mode ITERATIVE a storage account is resolved or created
and assigned before the first batch submission (the transaction ends up with
it in `_storage`, and the first submitted batch's last instruction already
references it as its first account key). -/
theorem claim_C5 (env : Env) (txe : TxEnv) (oracle : Nat → RPCResult)
    (tx0 : EthereumTransaction) (fuel : Nat) :
    ((sendEthereumTrx env txe oracle .SINGLE tx0 fuel).txFinal.storage = tx0.storage ∧
     (sendEthereumTrx env txe oracle .SINGLE tx0 fuel).storageCreate = none) ∧
    ((sendEthereumTrx env txe oracle .ITERATIVE tx0 fuel).txFinal.storage
        = some (resolveStorage env txe tx0) ∧
     ∃ b rest instr,
       (sendEthereumTrx env txe oracle .ITERATIVE tx0 fuel).trace = b :: rest ∧
       b.instructions.getLast? = some instr ∧
       instr.keys.head? = some ⟨resolveStorage env txe tx0, false, true⟩) := by
  refine ⟨⟨rfl, rfl⟩, ?_, ?_⟩
  · show (sendEthereumTrxIterative env txe oracle tx0 fuel).txFinal.storage = _
    rw [sendIterative_unfold]
    simp [continueLoop_txFinal_storage, txResolved]
  · show ∃ b rest instr,
        (sendEthereumTrxIterative env txe oracle tx0 fuel).trace = b :: rest ∧
        b.instructions.getLast? = some instr ∧
        instr.keys.head? = some ⟨resolveStorage env txe tx0, false, true⟩
    rw [sendIterative_unfold]
    refine ⟨_, _, _, rfl,
      sendNeonPrep_getLast (txResolved env txe tx0)
        [solInstrKeccak env (env.makeKeccakData 1 txe.msg.length 13)] _, ?_⟩
    simp [solInstr09PartialCall, solInstr09Keys]

/-- C6: throughout one iterative run, every submitted batch's last instruction
(the partial call of the first batch and the continue of every later batch)
carries the assigned storage account as its first account key, writable and
non-signer, and the association does not change: the transaction still holds
that very storage account when the run ends. -/
theorem claim_C6 (env : Env) (txe : TxEnv) (oracle : Nat → RPCResult)
    (tx0 : EthereumTransaction) (fuel : Nat) :
    (sendEthereumTrxIterative env txe oracle tx0 fuel).txFinal.storage
        = some (resolveStorage env txe tx0) ∧
    ∀ st, st ∈ (sendEthereumTrxIterative env txe oracle tx0 fuel).trace →
      ∃ instr, st.instructions.getLast? = some instr ∧
        instr.keys.head? = some ⟨resolveStorage env txe tx0, false, true⟩ := by
  rw [sendIterative_unfold]
  constructor
  · simp [continueLoop_txFinal_storage, txResolved]
  · intro st hst
    rcases List.mem_cons.mp hst with rfl | hst
    · refine ⟨_, sendNeonPrep_getLast (txResolved env txe tx0)
        [solInstrKeccak env (env.makeKeccakData 1 txe.msg.length 13)] _, ?_⟩
      simp [solInstr09PartialCall, solInstr09Keys]
    · have hst2 := continueLoop_trace_mem env oracle (txResolved env txe tx0)
        (resolveStorage env txe tx0) txe.callerProgram fuel 1 st hst
      subst hst2
      refine ⟨_, sendNeonPrep_getLast (txResolved env txe tx0) [] _, ?_⟩
      simp [solInstr10Continue, solInstr10Keys]

/-- Witness for C6: the first submitted batch of a concrete iterative run has
the derived storage account as the first key of its last instruction. -/
theorem claim_C6_witness :
    ∃ instr,
      (((sendEthereumTrxIterative envC txeC oracleFoundC tx0C 1).trace.headD
          ⟨[]⟩).instructions).getLast? = some instr ∧
      instr.keys.head? = some ⟨resolveStorage envC txeC tx0C, false, true⟩ :=
  (claim_C6 envC txeC oracleFoundC tx0C 1).2
    ((sendEthereumTrxIterative envC txeC oracleFoundC tx0C 1).trace.headD ⟨[]⟩)
    (by decide)

/-- C7: the partial-call payload is the single byte 0x09 followed by the
collateral-pool index as a 4-byte little-endian integer, the step count as an
8-byte little-endian integer and the payload bytes; the continue payload is
the single byte 0x0A followed by the step count as an 8-byte little-endian
integer. -/
theorem claim_C7 (env : Env) (tx : EthereumTransaction) (storage caller : Pubkey)
    (stepCount : Nat) (data : List Nat) :
    (solInstr09PartialCall env tx storage caller stepCount data).data =
      0x09 :: (toLEBytes 4 env.collateralPoolIndex ++ toLEBytes 8 stepCount ++ data) ∧
    (solInstr10Continue env tx storage caller stepCount).data =
      0x0A :: toLEBytes 8 stepCount :=
  ⟨rfl, rfl⟩

/-- C8: parsing the `CREATE_ACCOUNT_LAYOUT` serialization of any valid tuple
(lamports, space, ether, nonce) yields the tuple back. -/
theorem claim_C8 (a : CreateAccountLayoutArgs) (bs : List Nat)
    (h : buildCreateAccountLayout a = some bs) :
    parseCreateAccountLayout bs = some a := by
  obtain ⟨al, asp, ae, an⟩ := a
  by_cases hc : al < 2 ^ 64 ∧ asp < 2 ^ 64 ∧ ae.length = 20 ∧
      ae.all (fun b => b < 256) = true ∧ an < 2 ^ 8
  · simp only [buildCreateAccountLayout] at h
    rw [if_pos hc] at h
    obtain ⟨h1, h2, h3, _, h5⟩ := hc
    have hbs := Option.some.inj h
    subst hbs
    have lenA : (toLEBytes 8 al).length = 8 := toLEBytes_length 8 al
    have lenB : (toLEBytes 8 asp).length = 8 := toLEBytes_length 8 asp
    have e16 : toLEBytes 8 al ++ (toLEBytes 8 asp ++ (ae ++ [an])) =
        (toLEBytes 8 al ++ toLEBytes 8 asp) ++ (ae ++ [an]) := by
      simp [List.append_assoc]
    have e36 : toLEBytes 8 al ++ (toLEBytes 8 asp ++ (ae ++ [an])) =
        ((toLEBytes 8 al ++ toLEBytes 8 asp) ++ ae) ++ [an] := by
      simp [List.append_assoc]
    have hlen : 37 ≤ (toLEBytes 8 al ++ toLEBytes 8 asp ++ ae ++ [an]).length := by
      simp [lenA, lenB, h3]
    unfold parseCreateAccountLayout
    rw [if_pos (by simpa using hlen)]
    refine congrArg some ?_
    have ht8 : (toLEBytes 8 al ++ toLEBytes 8 asp ++ ae ++ [an]).take 8 =
        toLEBytes 8 al := by
      simp only [List.append_assoc]
      exact List.take_left' lenA
    have hd8 : (toLEBytes 8 al ++ toLEBytes 8 asp ++ ae ++ [an]).drop 8 =
        toLEBytes 8 asp ++ (ae ++ [an]) := by
      simp only [List.append_assoc]
      exact List.drop_left' lenA
    have hd16 : (toLEBytes 8 al ++ toLEBytes 8 asp ++ ae ++ [an]).drop 16 =
        ae ++ [an] := by
      simp only [List.append_assoc]
      rw [e16]
      exact List.drop_left' (by simp [lenA, lenB])
    have hd36 : (toLEBytes 8 al ++ toLEBytes 8 asp ++ ae ++ [an]).drop 36 = [an] := by
      simp only [List.append_assoc]
      rw [e36]
      exact List.drop_left' (by simp [lenA, lenB, h3])
    simp only [CreateAccountLayoutArgs.mk.injEq]
    refine ⟨?_, ?_, ?_, ?_⟩
    · rw [ht8]
      exact fromLEBytes_toLEBytes 8 al h1
    · rw [hd8, List.take_left' lenB]
      exact fromLEBytes_toLEBytes 8 asp h2
    · rw [hd16, List.take_left' h3]
    · rw [hd36]
      rfl
  · simp only [buildCreateAccountLayout] at h
    rw [if_neg hc] at h
    exact absurd h (by simp)

/-- Witness for C8: the round trip evaluated at a concrete tuple. -/
theorem claim_C8_witness :
    parseCreateAccountLayout
        (toLEBytes 8 5 ++ toLEBytes 8 7 ++ List.replicate 20 0 ++ [9]) = some aC :=
  claim_C8 aC (toLEBytes 8 5 ++ toLEBytes 8 7 ++ List.replicate 20 0 ++ [9]) (by decide)

/-- C9 (amended): if every inspected continue-batch result reports inner
instructions absent or a nonempty decoded data whose first byte differs
from 6, the loop never ends on its own: for every bound the unfolding runs
out of fuel, having submitted one continue batch per iteration on top of the
initial batch.  The amendment excludes results whose decoded data is empty,
where the code raises an IndexError and the run terminates abnormally rather
than looping forever. -/
theorem claim_C9 (env : Env) (txe : TxEnv) (oracle : Nat → RPCResult)
    (tx0 : EthereumTransaction)
    (h : ∀ n, 1 ≤ n →
      markerCheck env (oracle n) = .absent ∨ markerCheck env (oracle n) = .other) :
    ∀ fuel, (sendEthereumTrxIterative env txe oracle tx0 fuel).outcome = .fuelOut ∧
      (sendEthereumTrxIterative env txe oracle tx0 fuel).trace.length = fuel + 1 := by
  intro fuel
  rw [sendIterative_unfold]
  have hnever := continueLoop_never env oracle (txResolved env txe tx0)
    (resolveStorage env txe tx0) txe.callerProgram fuel 1 (fun k hk => h k hk)
  exact ⟨hnever.1, by simp [hnever.2]⟩

/-- Counterexample for C9 as stated: a concrete run whose results never carry
the marker byte 6 (every inspected decoded data is empty, so no first byte
ever equals 6 — the oracle is the constant function shown), yet the run
terminates: the IndexError of `data[0]` aborts it after the initial batch and
a single continue batch, instead of submitting continue batches forever. -/
theorem claim_C9_counterexample :
    oracleEmptyC = (fun _ => oracleEmptyC 0) ∧
    markerCheck envC (oracleEmptyC 0) = .emptyData ∧
    MarkerCheck.emptyData ≠ MarkerCheck.found ∧
    (sendEthereumTrxIterative envC txeC oracleEmptyC tx0C 5).outcome = .indexError ∧
    (sendEthereumTrxIterative envC txeC oracleEmptyC tx0C 5).trace.length = 2 :=
  ⟨rfl, by decide, by decide, by decide, by decide⟩

/-- Witness for C9 (amended): a concrete run whose results never have inner
instructions keeps running out of fuel at bound 3 after 3 + 1 submissions. -/
theorem claim_C9_witness :
    (sendEthereumTrxIterative envC txeC oracleAbsentC tx0C 3).outcome = .fuelOut ∧
    (sendEthereumTrxIterative envC txeC oracleAbsentC tx0C 3).trace.length = 3 + 1 :=
  claim_C9 envC txeC oracleAbsentC tx0C (fun _ _ => Or.inl rfl) 3

/-- C10: when the transaction carries an extra account-meta list, those metas
are appended after the fixed key list of the last instruction of every
submitted Solana transaction: the single-shot batch, the initial
keccak + partial-call batch, and each continue batch of an iterative run (so
they are re-appended on every loop iteration). -/
theorem claim_C10 (env : Env) (txe : TxEnv) (oracle : Nat → RPCResult)
    (tx0 : EthereumTransaction) (fuel : Nat) (metas : List AccountMeta)
    (h : tx0.trx_account_metas = some metas) :
    (∀ st, st ∈ (sendEthereumTrxSingle env txe oracle tx0).trace →
      ∃ instr, st.instructions.getLast? = some instr ∧
        instr.keys = solInstr05Keys env tx0 txe.callerProgram ++ metas) ∧
    (∃ b rest, (sendEthereumTrxIterative env txe oracle tx0 fuel).trace = b :: rest ∧
      (∃ ip, b.instructions.getLast? = some ip ∧
        ip.keys = solInstr09Keys env tx0 (resolveStorage env txe tx0)
          txe.callerProgram ++ metas) ∧
      ∀ st, st ∈ rest → ∃ ic, st.instructions.getLast? = some ic ∧
        ic.keys = solInstr10Keys env tx0 (resolveStorage env txe tx0)
          txe.callerProgram ++ metas) := by
  constructor
  · intro st hst
    rcases List.mem_singleton.mp hst with rfl
    refine ⟨_, sendNeonPrep_getLast { tx0 with solanaEtherCaller := some txe.callerProgram }
      [solInstrKeccak env (env.makeKeccakData 1 txe.msg.length 5)] _, ?_⟩
    simp [solInstr05, solInstr05Keys, h]
  · rw [sendIterative_unfold]
    refine ⟨_, _, rfl, ⟨_, sendNeonPrep_getLast (txResolved env txe tx0)
      [solInstrKeccak env (env.makeKeccakData 1 txe.msg.length 13)] _, ?_⟩, ?_⟩
    · simp [solInstr09PartialCall, solInstr09Keys, txResolved, h]
    · intro st hst
      have hst2 := continueLoop_trace_mem env oracle (txResolved env txe tx0)
        (resolveStorage env txe tx0) txe.callerProgram fuel 1 st hst
      subst hst2
      refine ⟨_, sendNeonPrep_getLast (txResolved env txe tx0) [] _, ?_⟩
      simp [solInstr10Continue, solInstr10Keys, txResolved, h]

/-- Witness for C10: the single-shot batch of a concrete transaction carrying
one extra account meta has that meta appended to its last instruction's keys. -/
theorem claim_C10_witness :
    ∃ instr,
      (((sendEthereumTrxSingle envC txeC oracleFoundC txMetasC).trace.headD
          ⟨[]⟩).instructions).getLast? = some instr ∧
      instr.keys = solInstr05Keys envC txMetasC txeC.callerProgram ++
        [⟨[19], false, false⟩] :=
  (claim_C10 envC txeC oracleFoundC txMetasC 1 [⟨[19], false, false⟩] rfl).1
    ((sendEthereumTrxSingle envC txeC oracleFoundC txMetasC).trace.headD ⟨[]⟩)
    (by decide)

end NeonEvm
